import Mathlib

/-!
Shallow embedding of the open-to-close Python client, covering the
properties translation layer (src/open_to_close/properties.py) and the
HTTP base client (src/open_to_close_api/base_client.py).

Python dictionaries are modelled as insertion-ordered association lists,
Python values as the inductive type Value, and raised exceptions as
Except results.  Functions named after the source keep the control flow
of the corresponding Python function; a few helpers from the base client
module open_to_close/base_client.py, which is not part of the sources,
are modelled from the specification and marked as such in their doc
comments.
-/

namespace OpenToClose

/-- Python values that flow through the client: None, int, str, list and
dict (insertion-ordered association list of string keys). -/
inductive Value where
  | vNone  : Value
  | vInt   : Int → Value
  | vStr   : String → Value
  | vList  : List Value → Value
  | vDict  : List (String × Value) → Value

/-- A Python dictionary with string keys. -/
abbrev PDict := List (String × Value)

/-- Dictionary lookup, d.get(k) returning an Option. -/
def dictGet (d : PDict) (k : String) : Option Value :=
  match d with
  | [] => none
  | (k0, v0) :: rest => if k0 == k then some v0 else dictGet rest k

/-- Python membership test, k in d. -/
def dictHas (d : PDict) (k : String) : Bool :=
  (dictGet d k).isSome

/-- Python assignment d[k] = v: updates the first binding in place,
appends otherwise (insertion order preserved). -/
def dictSet (d : PDict) (k : String) (v : Value) : PDict :=
  match d with
  | [] => [(k, v)]
  | (k0, v0) :: rest =>
    if k0 == k then (k0, v) :: rest else (k0, v0) :: dictSet rest k v

/-- Python dict merge as in the expression with d1 first and d2 second:
existing keys are updated in place, new keys appended in order. -/
def dictMerge (d1 d2 : PDict) : PDict :=
  d2.foldl (fun acc p => dictSet acc p.1 p.2) d1

/-- Python d.get(k) where a missing key yields None. -/
def pyGet (d : PDict) (k : String) : Value :=
  (dictGet d k).getD .vNone

/-- Python d.get(k, default). -/
def pyGetD (d : PDict) (k : String) (dflt : Value) : Value :=
  (dictGet d k).getD dflt

/-- Python truthiness of a value. -/
def truthy : Value → Bool
  | .vNone => false
  | .vInt n => n != 0
  | .vStr s => s != ""
  | .vList xs => !xs.isEmpty
  | .vDict d => !d.isEmpty

/-- Python a or b on values. -/
def pyOr (a b : Value) : Value :=
  if truthy a then a else b

/-- Python str(v).  Lists and dicts never reach str() on the paths the
claims are about; their rendering is a placeholder. -/
def pyStr : Value → String
  | .vNone => "None"
  | .vInt n => toString n
  | .vStr s => s
  | .vList _ => "[...]"
  | .vDict _ => "\x7b...\x7d"

/-- Python s.lower() on the ASCII data the client handles. -/
def lowerStr (s : String) : String :=
  ⟨s.toList.map Char.toLower⟩

/-- Python s.replace(c, r) for the single-character patterns the code
uses (spaces to hyphens and hyphens to spaces). -/
def replaceChar (s : String) (c r : Char) : String :=
  ⟨s.toList.map (fun x => if x == c then r else x)⟩

/-- Python s.strip(). -/
def trimStr (s : String) : String :=
  ⟨(((s.toList.dropWhile Char.isWhitespace).reverse).dropWhile
      Char.isWhitespace).reverse⟩

/-- Python s.startswith(pre). -/
def startsWithStr (s pre : String) : Bool :=
  pre.toList.isPrefixOf s.toList

/-- Python s[n:] on character positions. -/
def dropStr (s : String) (n : Nat) : String :=
  ⟨s.toList.drop n⟩

/-- Splits a character list at every occurrence of c, keeping empty
segments, as Python s.split(c) does. -/
def splitChar : List Char → Char → List (List Char)
  | [], _ => [[]]
  | x :: rest, c =>
    match splitChar rest c with
    | [] => if x == c then [[], []] else [[x]]
    | h :: t => if x == c then [] :: h :: t else (x :: h) :: t

/-- isinstance(v, str) and len(v.strip()) > 0, the non-empty-string test
used throughout the validators. -/
def isNonEmptyStr : Value → Bool
  | .vStr s => trimStr s != ""
  | _ => false

/-- Digit-string parser used to model Python int() and float() on
string inputs. -/
def parseNatDigits (cs : List Char) : Option Nat :=
  if cs.isEmpty then none
  else cs.foldl
    (fun acc c =>
      match acc with
      | none => none
      | some n => if c.isDigit then some (10 * n + (c.toNat - 48)) else none)
    (some 0)

/-- Splits an optional leading sign from a trimmed numeric string. -/
def splitSign (t : String) : Int × String :=
  if startsWithStr t "-" then (-1, dropStr t 1)
  else if startsWithStr t "+" then (1, dropStr t 1)
  else (1, t)

/-- Python int(v): ints pass through, strings parse as optionally signed
decimal integers after stripping whitespace, everything else raises. -/
def pyInt : Value → Option Int
  | .vInt n => some n
  | .vStr s =>
    let p := splitSign (trimStr s)
    (parseNatDigits p.2.toList).map (fun n => p.1 * (n : Int))
  | _ => none

/-- Python float(v), kept as the parsed parts (sign, integer-part value,
fraction-part value): ints widen, strings parse as optionally signed
decimals, everything else raises.  The validators only ever test the
parse for failure and the value for negativity, which these parts
determine. -/
def pyFloatParts : Value → Option (Int × Nat × Nat)
  | .vInt n => some (if n < 0 then -1 else 1, n.natAbs, 0)
  | .vStr s =>
    let p := splitSign (trimStr s)
    (match splitChar p.2.toList '.' with
     | [a] => (parseNatDigits a).map (fun n => (p.1, n, 0))
     | [a, b] =>
       if a.isEmpty && b.isEmpty then none
       else
         let ip := if a.isEmpty then some 0 else parseNatDigits a
         let fp := if b.isEmpty then some 0 else parseNatDigits b
         match ip, fp with
         | some i, some f => some (p.1, i, f)
         | _, _ => none
     | _ => none)
  | _ => none

/-- float_value < 0 on the parsed parts. -/
def partsNeg (p : Int × Nat × Nat) : Bool :=
  decide (p.1 < 0) && (p.2.1 != 0 || p.2.2 != 0)

/-- The typed exceptions of open_to_close/exceptions.py, modelled by
constructor; the server and unexpected errors keep their status code. -/
inductive ApiError where
  | validationError
  | authenticationError
  | notFoundError
  | rateLimitError
  | serverError (statusCode : Nat)
  | openToCloseAPIError (statusCode : Nat)
  | networkError
  deriving DecidableEq

/-- One field definition as stored in the field-mapping table: the dict
with keys id, type and optionally options (option name to option id). -/
structure FieldMapping where
  id : Int
  type : String
  options : Option (List (String × Int))
  deriving DecidableEq

/-- The name-to-definition field-mapping table. -/
abbrev FieldTable := List (String × FieldMapping)

/-- Lookup of a field mapping by field key. -/
def tableGet (t : FieldTable) (k : String) : Option FieldMapping :=
  match t with
  | [] => none
  | (k0, m0) :: rest => if k0 == k then some m0 else tableGet rest k

/-- options.get(k) on an option-name-to-id table. -/
def optGet (options : List (String × Int)) (k : String) : Option Int :=
  match options with
  | [] => none
  | (k0, n0) :: rest => if k0 == k then some n0 else optGet rest k

/-- Python falsiness of the option_id variable: None or 0. -/
def pyFalsy : Option Int → Bool
  | none => true
  | some n => n == 0

/-- The choice-option lookup chain of _convert_simple_to_api_format
(properties.py lines 397-444): exact lowercase match, then spaces
replaced by hyphens, then a leading listing- stripped, then the first
option equal up to identifying hyphens with spaces.  A falsy result
(absent, or option id 0) falls through to the next step, and a falsy
final result means no match. -/
def resolveOption (options : List (String × Int)) (value : String) : Option Int :=
  let vlow := lowerStr value
  let o1 := optGet options vlow
  let vnorm := replaceChar vlow ' ' '-'
  let o2 := if pyFalsy o1 then optGet options vnorm else o1
  let o3 :=
    if pyFalsy o2 then
      if startsWithStr vnorm "listing-" then optGet options (dropStr vnorm 8) else o2
    else o2
  let o4 :=
    if pyFalsy o3 then
      match options.find? (fun p => replaceChar p.1 '-' ' ' == replaceChar vlow '-' ' ') with
      | some p => some p.2
      | none => o3
    else o3
  if pyFalsy o4 then none else o4

/-- The field_aliases table of _convert_simple_to_api_format. -/
def aliasOf (k : String) : String :=
  if k == "title" then "contract_title"
  else if k == "client_type" then "contract_client_type"
  else if k == "status" then "contract_status"
  else k

/-- The required_defaults dict of _convert_simple_to_api_format
(properties.py lines 346-353). -/
def requiredDefaultsList (d : PDict) : PDict :=
  [("contract_title", pyOr (pyGet d "title") (pyGet d "contract_title")),
   ("contract_client_type",
     pyOr (pyGet d "client_type") (pyGetD d "contract_client_type" (.vStr "buyer"))),
   ("contract_status",
     pyOr (pyGet d "status") (pyGetD d "contract_status" (.vStr "listing- active")))]

/-- all_data, the merge of the simple data with the required defaults. -/
def allDataOf (d : PDict) : PDict :=
  dictMerge d (requiredDefaultsList d)

/-- One entry of the fields array sent to the API. -/
structure FieldEntry where
  id : Int
  value : Value

/-- The fields-array entry as the dict the code appends. -/
def entryToValue (e : FieldEntry) : Value :=
  .vDict [("id", .vInt e.id), ("value", e.value)]

/-- Python value is None. -/
def isNone : Value → Bool
  | .vNone => true
  | _ => false

/-- The choice-field value preparation of the conversion loop
(properties.py lines 397-444): a choice field with an options table
resolves string values to option ids, an unmatched value yields none
and the field is skipped, and every other value passes through. -/
def choiceFieldValue (m : FieldMapping) (value : Value) : Option Value :=
  if m.type == "choice" && m.options.isSome then
    match value with
    | .vStr s =>
      match resolveOption (m.options.getD []) s with
      | some oid => some (.vInt oid)
      | none => none
    | _ => some value
  else some value

/-- The append step of the conversion loop (properties.py lines
446-453): integer values of choice fields stay integers, every other
value is rendered with str(). -/
def emitEntry (m : FieldMapping) (fv : Value) : FieldEntry :=
  match fv with
  | .vInt n =>
    if m.type == "choice" then ⟨m.id, .vInt n⟩ else ⟨m.id, .vStr (pyStr fv)⟩
  | _ => ⟨m.id, .vStr (pyStr fv)⟩

/-- The per-field body of the conversion loop once a mapping is found. -/
def processValue (m : FieldMapping) (value : Value) : Option FieldEntry :=
  (choiceFieldValue m value).map (emitEntry m)

/-- The conversion loop over all_data (properties.py lines 367-453):
None values are skipped, keys are routed through the alias table, a key
whose target was already processed is skipped, keys without a mapping
are skipped, and the target is marked processed as soon as its mapping
is found, before choice resolution. -/
def convertFields (table : FieldTable) : PDict → List String → List FieldEntry
  | [], _ => []
  | (k, v) :: rest, processed =>
    if isNone v then convertFields table rest processed
    else
      if processed.contains (aliasOf k) then convertFields table rest processed
      else
        match tableGet table (aliasOf k) with
        | none => convertFields table rest processed
        | some m =>
          match processValue m v with
          | none => convertFields table rest (aliasOf k :: processed)
          | some e => e :: convertFields table rest (aliasOf k :: processed)

/-- The three required field keys of the conversion. -/
def reqKeys : List String :=
  ["contract_title", "contract_client_type", "contract_status"]

/-- The final required-fields check of _convert_simple_to_api_format: a
required key whose mapping exists but whose field id is absent from the
built array is an error (lines 455-468). -/
def requiredMissing (table : FieldTable) (ids : List Int) : Bool :=
  reqKeys.any (fun k =>
    match tableGet table k with
    | some m => !(ids.contains m.id)
    | none => false)

/-- _convert_simple_to_api_format (properties.py lines 316-474) with the
field-mapping table and the resolved team member id as inputs; the two
lookups that produce them are modelled separately as stateful steps. -/
def convertSimple (table : FieldTable) (tm : Int) (d : PDict) : Except ApiError PDict :=
  if truthy (pyOr (pyGet d "title") (pyGet d "contract_title")) = false then
    .error .validationError
  else
    let fields := convertFields table (allDataOf d) []
    if requiredMissing table (fields.map (fun e => e.id)) then
      .error .validationError
    else
      .ok [("team_member_id", .vInt tm), ("time_zone_id", .vInt 1),
           ("fields", .vList (fields.map entryToValue))]

/-- The fields-array scan of _validate_property_data (properties.py
lines 64-75): some entry is a dict whose key equals contract_title or
whose id equals 926565. -/
def fieldsArrayHasTitle (d : PDict) : Bool :=
  match dictGet d "fields" with
  | some (.vList l) =>
    l.any (fun f =>
      match f with
      | .vDict fd =>
        (match dictGet fd "key" with
         | some (.vStr s) => s == "contract_title"
         | _ => false) ||
        (match dictGet fd "id" with
         | some (.vInt n) => n == 926565
         | _ => false)
      | _ => false)
  | _ => false

/-- The has_title determination of _validate_property_data for create
(properties.py lines 56-81). -/
def hasTitle (d : PDict) : Bool :=
  dictHas d "contract_title" || dictHas d "field_926565" || fieldsArrayHasTitle d

/-- A present key whose value fails the non-empty-string test. -/
def badStrField (d : PDict) (k : String) : Bool :=
  match dictGet d k with
  | none => false
  | some v => !(isNonEmptyStr v)

/-- A present, non-None key whose value fails float() or is negative
(properties.py lines 108-123). -/
def badNumericField (d : PDict) (k : String) : Bool :=
  match dictGet d k with
  | none => false
  | some .vNone => false
  | some v =>
    match pyFloatParts v with
    | none => true
    | some p => partsNeg p

/-- The title_fields list of _validate_property_data. -/
def titleFields : List String := ["contract_title", "field_926565"]

/-- The address_fields list of _validate_property_data. -/
def addressFields : List String :=
  ["property_address", "property_city", "property_state", "property_zip"]

/-- The numeric_fields list of _validate_property_data. -/
def numericFields : List String := ["property_price", "sale_price", "list_price"]

/-- _validate_property_data (properties.py lines 35-133): non-dict and
empty data are rejected, create requires a contract-title field in one
of its three shapes, and present title, address, price and status
fields are checked in the order of the source. -/
def validatePropertyData (data : Value) (operation : String) : Except ApiError Unit :=
  match data with
  | .vDict d =>
    if d.isEmpty then .error .validationError
    else if operation == "create" && !(hasTitle d) then .error .validationError
    else if titleFields.any (badStrField d) then .error .validationError
    else if addressFields.any (badStrField d) then .error .validationError
    else if numericFields.any (badNumericField d) then .error .validationError
    else if badStrField d "status" then .error .validationError
    else .ok ()
  | _ => .error .validationError

/-- The limit block of _validate_list_params (properties.py lines
157-174): int() coercion, positivity, and assignment of the coerced
value into the copy. -/
def checkLimit (d : PDict) : Except ApiError PDict :=
  match dictGet d "limit" with
  | none => .ok d
  | some v =>
    match pyInt v with
    | none => .error .validationError
    | some n =>
      if n ≤ 0 then .error .validationError else .ok (dictSet d "limit" (.vInt n))

/-- The offset block of _validate_list_params (lines 176-189). -/
def checkOffset (d : PDict) : Except ApiError PDict :=
  match dictGet d "offset" with
  | none => .ok d
  | some v =>
    match pyInt v with
    | none => .error .validationError
    | some n =>
      if n < 0 then .error .validationError else .ok (dictSet d "offset" (.vInt n))

/-- The status block of _validate_list_params (lines 191-197). -/
def checkStatus (d : PDict) : Except ApiError PDict :=
  match dictGet d "status" with
  | none => .ok d
  | some v => if isNonEmptyStr v then .ok d else .error .validationError

/-- _validate_list_params (properties.py lines 135-200), modelled in
state-passing style: the second component is the final value of the
argument, which no statement of the source ever writes to (all updates
go to the copy validated_params). -/
def validateListParams (params : Option Value) : Except ApiError PDict × Option Value :=
  match params with
  | none => (.ok [], none)
  | some (.vDict d) =>
    ((checkLimit d).bind (fun d1 => (checkOffset d1).bind checkStatus),
     some (.vDict d))
  | some v => (.error .validationError, some v)

/-- The limit value is present and fails coercion or positivity. -/
def badLimit (d : PDict) : Bool :=
  match dictGet d "limit" with
  | none => false
  | some v =>
    match pyInt v with
    | none => true
    | some n => decide (n ≤ 0)

/-- The offset value is present and fails coercion or is negative. -/
def badOffset (d : PDict) : Bool :=
  match dictGet d "offset" with
  | none => false
  | some v =>
    match pyInt v with
    | none => true
    | some n => decide (n < 0)

/-- The status filter is present and not a non-empty string. -/
def badStatus (d : PDict) : Bool :=
  badStrField d "status"

/-- Coercion of one int-coercible key into the copy, as the list-params
validator performs for limit and offset. -/
def coerceKey (d : PDict) (k : String) : PDict :=
  match dictGet d k with
  | none => d
  | some v =>
    match pyInt v with
    | some n => dictSet d k (.vInt n)
    | none => d

/-- _handle_response (base_client.py lines 49-95) as a function of the
status code and the already-parsed body. -/
def handleResponse (status : Nat) (body : Value) : Except ApiError Value :=
  if status == 200 || status == 201 then .ok body
  else if status == 204 then .ok (.vDict [])
  else if status == 400 then .error .validationError
  else if status == 401 then .error .authenticationError
  else if status == 404 then .error .notFoundError
  else if status == 429 then .error .rateLimitError
  else if 500 ≤ status ∧ status < 600 then .error (.serverError status)
  else .error (.openToCloseAPIError status)

/-- The transport outcome of one HTTP interaction: a requests-level
exception, or a status code with a parsed body. -/
abbrev TransportResult := Except String (Nat × Value)

/-- An issued HTTP request, recorded by method and path. -/
structure Req where
  method : String
  path : String
  deriving DecidableEq

/-- The observable client state: the field-mapping cache, the remaining
transport trace (one entry per HTTP interaction the network will
answer), and the log of issued requests. -/
structure CState where
  cache : Option FieldTable
  trace : List TransportResult
  issued : List Req

/-- _request (base_client.py lines 97-126): issues exactly one request,
consumes exactly one transport interaction, wraps a transport exception
in NetworkError and otherwise translates the response through
_handle_response.  The source has no loop and no retry, so the
embedding consumes a single trace element; an exhausted trace stands
for a transport failure. -/
def requestS (method path : String) (σ : CState) : Except ApiError Value × CState :=
  match σ.trace with
  | [] => (.error .networkError, ⟨σ.cache, [], σ.issued ++ [⟨method, path⟩]⟩)
  | r :: rest =>
    let σ2 : CState := ⟨σ.cache, rest, σ.issued ++ [⟨method, path⟩]⟩
    match r with
    | .error _ => (.error .networkError, σ2)
    | .ok sb => (handleResponse sb.1 sb.2, σ2)

/-- One raw field definition as fetched from the API: key, id, type and
the option table for choice fields. -/
structure RawFieldDef where
  key : String
  id : Int
  type : String
  options : Option (List (String × Int))

/-- Building the name-to-definition table (with its option-name-to-id
subtables) from the fetched definitions. -/
def buildFieldMappings (defs : List RawFieldDef) : FieldTable :=
  defs.map (fun f => (f.key, ⟨f.id, f.type, f.options⟩))

/-- The table a client with state σ resolves: the cache when warm, the
freshly built table otherwise. -/
def effectiveTable (defs : List RawFieldDef) (σ : CState) : FieldTable :=
  match σ.cache with
  | some t => t
  | none => buildFieldMappings defs

/-- Modelled from the spec: get_field_mappings is defined in
open_to_close/base_client.py, which is not among the sources; the
specification describes it as fetch field definitions once, build
name-to-id and option-name-to-id tables, cache them.  The parameter
defs is the parsed result of the single fetch; a cold cache issues the
fetch and stores the built table, a warm cache answers without a
request. -/
def getFieldMappingsS (defs : List RawFieldDef) (σ : CState) : FieldTable × CState :=
  match σ.cache with
  | some t => (t, σ)
  | none =>
    let t := buildFieldMappings defs
    (t, ⟨some t, σ.trace, σ.issued ++ [⟨"GET", "/propertyFields"⟩]⟩)

/-- _get_team_member_id (properties.py lines 211-237): lists teams (one
request, modelled from the spec since teams.py is not among the
sources), returns the first member id of the first team with members,
and falls back to 26392 otherwise, never raising. -/
def getTeamMemberIdS (teams : List (List Int)) (σ : CState) : Int × CState :=
  let σ2 : CState := ⟨σ.cache, σ.trace, σ.issued ++ [⟨"GET", "/teams"⟩]⟩
  match teams.find? (fun t => !t.isEmpty) with
  | some t => (t.headD 26392, σ2)
  | none => (26392, σ2)

/-- _convert_simple_to_api_format with its two stateful prefixes: the
field-mapping fetch and, when no team member id was supplied, the
team-member lookup, both performed before any validation of the data
(properties.py lines 328-333). -/
def convertSimpleS (defs : List RawFieldDef) (teams : List (List Int))
    (tmOpt : Option Int) (d : PDict) (σ : CState) : Except ApiError PDict × CState :=
  let r1 := getFieldMappingsS defs σ
  match tmOpt with
  | some t => (convertSimple r1.1 t d, r1.2)
  | none =>
    let r2 := getTeamMemberIdS teams r1.2
    (convertSimple r1.1 r2.1 d, r2.2)

/-- The simple dict built by _build_api_format (properties.py lines
476-506) before it delegates to the conversion. -/
def buildApiFormatDict (title : String) (clientType status : Option String)
    (purchaseAmount : Option Value) : PDict :=
  let d : PDict :=
    [("contract_title", .vStr title),
     ("contract_client_type",
       .vStr (match clientType with
              | some c => if c == "" then "Buyer" else c
              | none => "Buyer")),
     ("contract_status",
       .vStr (match status with
              | some s => if s == "" then "Listing- Active" else s
              | none => "Listing- Active"))]
  match purchaseAmount with
  | some v => dictSet d "purchase_amount" v
  | none => d

/-- _prepare_property_data (properties.py lines 271-314): a string is a
bare title with defaults, a dict holding both a fields key and a
team_member_id key is already API format and is returned as a copy
after the fields-is-a-list check, any other dict is converted, and any
other input raises. -/
def preparePropertyDataS (defs : List RawFieldDef) (teams : List (List Int))
    (tmOpt : Option Int) (data : Value) (σ : CState) : Except ApiError PDict × CState :=
  match data with
  | .vStr s =>
    if trimStr s == "" then (.error .validationError, σ)
    else
      convertSimpleS defs teams tmOpt
        (buildApiFormatDict (trimStr s) (some "Buyer") (some "Listing- Active") none) σ
  | .vDict d =>
    if dictHas d "fields" && dictHas d "team_member_id" then
      (match dictGet d "fields" with
       | some (.vList _) => (.ok d, σ)
       | _ => (.error .validationError, σ))
    else convertSimpleS defs teams tmOpt d σ
  | _ => (.error .validationError, σ)

/-- Modelled from the spec: _validate_resource_id lives in
open_to_close/base_client.py, which is not among the sources; the
docstrings of retrieve, update and delete say the id must be a positive
integer and that ValidationError is raised when it is invalid. -/
def validateResourceId (pid : Int) : Except ApiError Int :=
  if pid ≤ 0 then .error .validationError else .ok pid

/-- Modelled from the spec: _process_response_data lives in
open_to_close/base_client.py, which is not among the sources; per the
docstrings it returns the dictionary representing the resource, so it
is modelled as the parsed response itself. -/
def processResponseData (v : Value) : Value := v

/-- create_property (properties.py lines 557-684): prepare the data,
validate the prepared data for create, then POST /properties/ and
translate the response. -/
def createPropertyS (defs : List RawFieldDef) (teams : List (List Int))
    (tmOpt : Option Int) (data : Value) (σ : CState) : Except ApiError Value × CState :=
  match preparePropertyDataS defs teams tmOpt data σ with
  | (.error e, σ1) => (.error e, σ1)
  | (.ok api, σ1) =>
    match validatePropertyData (.vDict api) "create" with
    | .error e => (.error e, σ1)
    | .ok _ =>
      let r := requestS "POST" "/properties/" σ1
      (r.1.map processResponseData, r.2)

/-- update_property (properties.py lines 726-785): validate the id,
validate the raw data for update, then PUT the resource and translate
the response. -/
def updatePropertyS (pid : Int) (data : Value) (σ : CState) :
    Except ApiError Value × CState :=
  match validateResourceId pid with
  | .error e => (.error e, σ)
  | .ok vid =>
    match validatePropertyData data "update" with
    | .error e => (.error e, σ)
    | .ok _ =>
      let r := requestS "PUT" ("/properties/" ++ toString vid) σ
      (r.1.map processResponseData, r.2)

/-- The id carried by a fields-array entry, for stating membership. -/
def entryIdOf (f : Value) : Option Int :=
  match f with
  | .vDict fd =>
    match dictGet fd "id" with
    | some (.vInt n) => some n
    | _ => none
  | _ => none

/-- Whether the prepared data carries a fields entry with the given id. -/
def fieldsHasEntryId (r : PDict) (i : Int) : Bool :=
  match dictGet r "fields" with
  | some (.vList l) => l.any (fun f => entryIdOf f == some i)
  | _ => false

/-- Whether some fields entry carries the given string as its value. -/
def fieldsHasStrValue (r : PDict) (s : String) : Bool :=
  match dictGet r "fields" with
  | some (.vList l) =>
    l.any (fun f =>
      match f with
      | .vDict fd =>
        match dictGet fd "value" with
        | some (.vStr t) => t == s
        | _ => false
      | _ => false)
  | _ => false

/-- A small field-definition sample with the ids and options the repo
documents (create_property docstring and the v2.6.0 examples). -/
def sampleDefs : List RawFieldDef :=
  [⟨"contract_title", 926565, "text", none⟩,
   ⟨"contract_client_type", 926553, "choice",
     some [("buyer", 797212), ("seller", 797213), ("dual", 797214)]⟩,
   ⟨"contract_status", 926552, "choice",
     some [("listing- active", 797206), ("under-contract", 797209),
           ("closed", 797207)]⟩,
   ⟨"purchase_amount", 926554, "number", none⟩]

/-- The built sample table. -/
def sampleTable : FieldTable := buildFieldMappings sampleDefs

/-- A table extending the sample with a choice field one of whose
options carries the id 0. -/
def zeroOptionTable : FieldTable :=
  sampleTable ++ [("property_type", ⟨926811, "choice", some [("condo", 0)]⟩)]

/-- The value carried by the fields entry with the given id, if any. -/
def fieldsEntryValue (r : PDict) (i : Int) : Option Value :=
  match dictGet r "fields" with
  | some (.vList l) =>
    match l.find? (fun f => entryIdOf f == some i) with
    | some (.vDict fd) => dictGet fd "value"
    | _ => none
  | _ => none

/-- The simple-format input of the v2.6.0 preserve_text_values example
(src/examples/preserve_text_values_examples.py lines 43-50). -/
def preserveExampleInput : PDict :=
  [("title", .vStr "UI-Friendly Property Creation"),
   ("client_type", .vStr "Buyer"),
   ("status", .vStr "Under Contract")]

/-- A fresh client state: cold cache, no pending transport answers, no
issued requests. -/
def freshState : CState := ⟨none, [], []⟩

/-- The input of the option-id-0 counterexample: a title plus a choice
value that matches the only option of property_type after lowercasing. -/
def zeroOptionInput : PDict :=
  [("title", .vStr "T"), ("property_type", .vStr "Condo")]

/-- The conversion result on the option-id-0 counterexample input. -/
def zeroOptionResult : PDict :=
  [("team_member_id", .vInt 26392), ("time_zone_id", .vInt 1),
   ("fields", .vList
     [.vDict [("id", .vInt 926565), ("value", .vStr "T")],
      .vDict [("id", .vInt 926553), ("value", .vInt 797212)],
      .vDict [("id", .vInt 926552), ("value", .vInt 797206)]])]

/-- A simple input whose status value resolves through the hyphenation
step of the lookup chain. -/
def c1WitnessInput : PDict :=
  [("title", .vStr "T"), ("status", .vStr "Under Contract")]

/-- The conversion result on c1WitnessInput: the status text resolved
to option id 797209 through the hyphenation step. -/
def c1WitnessResult : PDict :=
  [("team_member_id", .vInt 26392), ("time_zone_id", .vInt 1),
   ("fields", .vList
     [.vDict [("id", .vInt 926565), ("value", .vStr "T")],
      .vDict [("id", .vInt 926552), ("value", .vInt 797209)],
      .vDict [("id", .vInt 926553), ("value", .vInt 797212)]])]

/-- A minimal simple create input for instantiating the shape theorem. -/
def c4WitnessInput : PDict := [("title", .vStr "Witness Home")]

/-- The preparation result on c4WitnessInput. -/
def c4WitnessResult : PDict :=
  [("team_member_id", .vInt 26392), ("time_zone_id", .vInt 1),
   ("fields", .vList
     [.vDict [("id", .vInt 926565), ("value", .vStr "Witness Home")],
      .vDict [("id", .vInt 926553), ("value", .vInt 797212)],
      .vDict [("id", .vInt 926552), ("value", .vInt 797206)]])]

/-- The conversion result on c9WitnessInput. -/
def c9WitnessResult : PDict :=
  [("team_member_id", .vInt 26392), ("time_zone_id", .vInt 1),
   ("fields", .vList
     [.vDict [("id", .vInt 926565), ("value", .vStr "Inv Home")],
      .vDict [("id", .vInt 926554), ("value", .vStr "450000")],
      .vDict [("id", .vInt 926553), ("value", .vInt 797212)],
      .vDict [("id", .vInt 926552), ("value", .vInt 797206)]])]

/-- Create input whose contract_title is an integer: it fails the
validator for update but is converted and posted by create. -/
def c6Input : Value := .vDict [("contract_title", .vInt 42)]

/-- A cold client whose transport will answer one request with 200 and
a body carrying the new property id. -/
def c6State : CState := ⟨none, [.ok (200, .vDict [("id", .vInt 999)])], []⟩

/-- A simple input exercising a text field, a passthrough number field
and the two defaulted choice fields. -/
def c9WitnessInput : PDict :=
  [("title", .vStr "Inv Home"), ("purchase_amount", .vInt 450000)]

/-- Already-API-format data for the passthrough theorem instance. -/
def c8WitnessInput : PDict :=
  [("team_member_id", .vInt 26392), ("fields", .vList [])]

/-- List parameters with a string limit, an int offset and a status. -/
def c10WitnessParams : PDict :=
  [("limit", .vStr "5"), ("offset", .vInt 0), ("status", .vStr "active")]

/-- C3: _handle_response translates each HTTP response by status code
into exactly one outcome: 200 and 201 return the parsed body, 204
returns an empty dictionary, 400 raises ValidationError, 401 raises
AuthenticationError, 404 raises NotFoundError, 429 raises
RateLimitError, every status in the interval from 500 to 599 raises
ServerError, every other status raises OpenToCloseAPIError, and the
translation never produces any other exception such as NetworkError. -/
theorem c3_handle_response_classification (s : Nat) (b : Value) :
    ((s = 200 ∨ s = 201) → handleResponse s b = .ok b) ∧
    (s = 204 → handleResponse s b = .ok (.vDict [])) ∧
    (s = 400 → handleResponse s b = .error .validationError) ∧
    (s = 401 → handleResponse s b = .error .authenticationError) ∧
    (s = 404 → handleResponse s b = .error .notFoundError) ∧
    (s = 429 → handleResponse s b = .error .rateLimitError) ∧
    (500 ≤ s → s < 600 → handleResponse s b = .error (.serverError s)) ∧
    (s ∉ ([200, 201, 204, 400, 401, 404, 429] : List Nat) →
      ¬(500 ≤ s ∧ s < 600) →
      handleResponse s b = .error (.openToCloseAPIError s)) ∧
    (∀ e, handleResponse s b = .error e → e ≠ .networkError) := by
  refine ⟨?_, ?_, ?_, ?_, ?_, ?_, ?_, ?_, ?_⟩
  · rintro (rfl | rfl) <;> rfl
  · rintro rfl; rfl
  · rintro rfl; rfl
  · rintro rfl; rfl
  · rintro rfl; rfl
  · rintro rfl; rfl
  · intro h1 h2
    unfold handleResponse
    split_ifs <;>
      first
      | rfl
      | ((try simp only [Bool.or_eq_true, beq_iff_eq] at *); omega)
  · intro h1 h2
    simp only [List.mem_cons, List.not_mem_nil, or_false, not_or] at h1
    unfold handleResponse
    split_ifs <;>
      first
      | rfl
      | ((try simp only [Bool.or_eq_true, beq_iff_eq] at *); omega)
  · intro e he
    unfold handleResponse at he
    split_ifs at he <;>
      first
      | exact Except.noConfusion he
      | (injection he with h; subst h; simp)

/-- Witness for C3 at concrete statuses: 503 is classified as a server
error and 418 as the catch-all OpenToCloseAPIError. -/
theorem c3_handle_response_classification_witness :
    handleResponse 503 (.vDict []) = .error (.serverError 503) ∧
    handleResponse 418 (.vDict []) = .error (.openToCloseAPIError 418) ∧
    handleResponse 201 (.vDict []) = .ok (.vDict []) :=
  ⟨(c3_handle_response_classification 503 (.vDict [])).2.2.2.2.2.2.1
      (by decide) (by decide),
   (c3_handle_response_classification 418 (.vDict [])).2.2.2.2.2.2.2.1
      (by decide) (by decide),
   (c3_handle_response_classification 201 (.vDict [])).1 (Or.inr rfl)⟩

/-- C5: field definitions are fetched at most once per client.  On a
cold cache the resolver issues the single fetch, builds the table and
stores it; on a warm cache it answers the stored table without issuing
a request; and a second call after any first call returns the same
table and leaves the state unchanged. -/
theorem c5_field_mappings_cached (defs : List RawFieldDef) :
    (∀ tr iss,
      getFieldMappingsS defs ⟨none, tr, iss⟩ =
        (buildFieldMappings defs,
         ⟨some (buildFieldMappings defs), tr,
          iss ++ [⟨"GET", "/propertyFields"⟩]⟩)) ∧
    (∀ t tr iss,
      getFieldMappingsS defs ⟨some t, tr, iss⟩ = (t, ⟨some t, tr, iss⟩)) ∧
    (∀ σ,
      getFieldMappingsS defs ((getFieldMappingsS defs σ).2) =
        ((getFieldMappingsS defs σ).1, (getFieldMappingsS defs σ).2)) := by
  refine ⟨fun tr iss => rfl, fun t tr iss => rfl, ?_⟩
  intro σ
  rcases σ with ⟨_ | t, tr, iss⟩ <;> rfl

/-- C7: _request issues exactly one HTTP request per call and never
retries: the issued log grows by exactly the one request, exactly one
transport interaction is consumed, a transport failure maps to
NetworkError, any received response is translated by _handle_response
and the outcome, error or not, is returned without a further request. -/
theorem c7_single_request_no_retry (method path : String) :
    (∀ σ, (requestS method path σ).2.issued = σ.issued ++ [⟨method, path⟩]) ∧
    (∀ σ, (requestS method path σ).2.trace = σ.trace.tail) ∧
    (∀ σ, (requestS method path σ).2.cache = σ.cache) ∧
    (∀ c msg rest iss,
      (requestS method path ⟨c, .error msg :: rest, iss⟩).1 = .error .networkError) ∧
    (∀ c s b rest iss,
      (requestS method path ⟨c, .ok (s, b) :: rest, iss⟩).1 = handleResponse s b) ∧
    (∀ c iss, (requestS method path ⟨c, [], iss⟩).1 = .error .networkError) := by
  refine ⟨?_, ?_, ?_, fun c msg rest iss => rfl, fun c s b rest iss => rfl,
          fun c iss => rfl⟩ <;>
    (intro σ; rcases σ with ⟨c, _ | ⟨r, rest⟩, iss⟩)
  · rfl
  · rcases r with msg | sb <;> rfl
  · rfl
  · rcases r with msg | sb <;> rfl
  · rfl
  · rcases r with msg | sb <;> rfl

/-- C2: the translation layer of the sources has no mode that preserves
human-readable choice text.  create_property accepts only property_data
and team_member_id, and on the input of the v2.6.0
preserve_text_values example the only available behaviour converts
Buyer to option id 797212 and Under Contract to option id 797209; no
fields entry carries the text values, refuting the documented
preserve_text_values mode. -/
theorem c2_no_preserve_text_mode :
    convertSimple sampleTable 26392 preserveExampleInput =
      .ok [("team_member_id", .vInt 26392), ("time_zone_id", .vInt 1),
           ("fields", .vList
             [.vDict [("id", .vInt 926565),
                      ("value", .vStr "UI-Friendly Property Creation")],
              .vDict [("id", .vInt 926553), ("value", .vInt 797212)],
              .vDict [("id", .vInt 926552), ("value", .vInt 797209)]])] ∧
    (∀ r, convertSimple sampleTable 26392 preserveExampleInput = .ok r →
      fieldsHasStrValue r "Buyer" = false ∧
      fieldsHasStrValue r "Under Contract" = false ∧
      fieldsEntryValue r 926553 = some (.vInt 797212) ∧
      fieldsEntryValue r 926552 = some (.vInt 797209)) := by
  refine ⟨rfl, ?_⟩
  intro r hr
  have : r =
      [("team_member_id", .vInt 26392), ("time_zone_id", .vInt 1),
       ("fields", .vList
         [.vDict [("id", .vInt 926565),
                  ("value", .vStr "UI-Friendly Property Creation")],
          .vDict [("id", .vInt 926553), ("value", .vInt 797212)],
          .vDict [("id", .vInt 926552), ("value", .vInt 797209)]])] := by
    have h2 := hr.symm.trans (rfl : convertSimple sampleTable 26392 preserveExampleInput = _)
    exact (Except.ok.injEq _ _).mp h2.symm |>.symm ▸ rfl
  subst this
  exact ⟨rfl, rfl, rfl, rfl⟩

theorem isNone_eq_false {v : Value} : isNone v = false ↔ v ≠ .vNone := by
  cases v <;> simp [isNone]

theorem emitEntry_id (m : FieldMapping) (fv : Value) : (emitEntry m fv).id = m.id := by
  cases fv <;> (simp only [emitEntry]; try (first | rfl | (split <;> rfl)))

theorem emitEntry_value (m : FieldMapping) (fv : Value) :
    (∃ n, (emitEntry m fv).value = .vInt n) ∨ (∃ s, (emitEntry m fv).value = .vStr s) := by
  cases fv
  case vInt n =>
    simp only [emitEntry]
    split
    · exact Or.inl ⟨n, rfl⟩
    · exact Or.inr ⟨_, rfl⟩
  all_goals (simp only [emitEntry]; exact Or.inr ⟨_, rfl⟩)

theorem processValue_id {m : FieldMapping} {v : Value} {e : FieldEntry}
    (h : processValue m v = some e) : e.id = m.id := by
  unfold processValue at h
  obtain ⟨fv, _, hemit⟩ := Option.map_eq_some'.mp h
  exact hemit ▸ emitEntry_id m fv

theorem processValue_shape {m : FieldMapping} {v : Value} {e : FieldEntry}
    (h : processValue m v = some e) :
    (∃ n, e.value = .vInt n) ∨ (∃ s, e.value = .vStr s) := by
  unfold processValue at h
  obtain ⟨fv, _, hemit⟩ := Option.map_eq_some'.mp h
  exact hemit ▸ emitEntry_value m fv

theorem tableGet_id_mem {t : FieldTable} {k : String} {m : FieldMapping}
    (h : tableGet t k = some m) : m.id ∈ t.map (fun p => p.2.id) := by
  induction t with
  | nil => simp [tableGet] at h
  | cons p rest ih =>
    rcases p with ⟨k0, m0⟩
    simp only [tableGet] at h
    split_ifs at h with h0
    · injection h with h2
      exact h2 ▸ List.mem_cons_self _ _
    · exact List.mem_cons_of_mem _ (ih h)

theorem convertFields_sound (table : FieldTable) :
    ∀ (l : PDict) (processed : List String) (e : FieldEntry),
      e ∈ convertFields table l processed →
      ∃ k v m, (k, v) ∈ l ∧ isNone v = false ∧
        tableGet table (aliasOf k) = some m ∧ processValue m v = some e := by
  intro l
  induction l with
  | nil => intro processed e he; simp [convertFields] at he
  | cons hd tl ih =>
    rcases hd with ⟨k, v⟩
    intro processed e he
    simp only [convertFields] at he
    split at he
    · obtain ⟨k2, v2, m2, hmem, hv, hg, hp⟩ := ih processed e he
      exact ⟨k2, v2, m2, List.mem_cons_of_mem _ hmem, hv, hg, hp⟩
    · rename_i hnone
      split at he
      · obtain ⟨k2, v2, m2, hmem, hv, hg, hp⟩ := ih processed e he
        exact ⟨k2, v2, m2, List.mem_cons_of_mem _ hmem, hv, hg, hp⟩
      · split at he
        · obtain ⟨k2, v2, m2, hmem, hv, hg, hp⟩ := ih processed e he
          exact ⟨k2, v2, m2, List.mem_cons_of_mem _ hmem, hv, hg, hp⟩
        · rename_i m hm
          split at he
          · obtain ⟨k2, v2, m2, hmem, hv, hg, hp⟩ := ih _ e he
            exact ⟨k2, v2, m2, List.mem_cons_of_mem _ hmem, hv, hg, hp⟩
          · rename_i e0 hpv
            rcases List.mem_cons.mp he with rfl | he2
            · exact ⟨k, v, m, List.mem_cons_self _ _,
                Bool.not_eq_true _ ▸ eq_false_of_ne_true hnone, hm, hpv⟩
            · obtain ⟨k2, v2, m2, hmem, hv, hg, hp⟩ := ih _ e he2
              exact ⟨k2, v2, m2, List.mem_cons_of_mem _ hmem, hv, hg, hp⟩

theorem contains_cons_false {a b : String} {l : List String}
    (h1 : l.contains b = false) (h2 : a ≠ b) : (a :: l).contains b = false := by
  simp only [List.contains_cons, h1, beq_eq_false_iff_ne.mpr (Ne.symm h2), Bool.or_false]

theorem convertFields_mem (table : FieldTable) :
    ∀ (l1 : PDict) (k : String) (v : Value) (l2 : PDict) (processed : List String)
      (m : FieldMapping) (e : FieldEntry),
      isNone v = false →
      processed.contains (aliasOf k) = false →
      (∀ p ∈ l1, isNone p.2 = true ∨ aliasOf p.1 ≠ aliasOf k) →
      tableGet table (aliasOf k) = some m →
      processValue m v = some e →
      e ∈ convertFields table (l1 ++ (k, v) :: l2) processed := by
  intro l1
  induction l1 with
  | nil =>
    intro k v l2 processed m e hv hproc hearly hm hpv
    have hnp : aliasOf k ∉ processed := by simpa using hproc
    simp [convertFields, hv, hnp, hm, hpv]
  | cons p l1 ih =>
    rcases p with ⟨k1, v1⟩
    intro k v l2 processed m e hv hproc hearly hm hpv
    have hp1 := hearly ⟨k1, v1⟩ (List.mem_cons_self _ _)
    have hrest : ∀ q ∈ l1, isNone q.2 = true ∨ aliasOf q.1 ≠ aliasOf k :=
      fun q hq => hearly q (List.mem_cons_of_mem _ hq)
    simp only [List.cons_append, convertFields]
    by_cases h1 : isNone v1 = true
    · rw [if_pos h1]
      exact ih k v l2 processed m e hv hproc hrest hm hpv
    · rw [if_neg h1]
      have hne : aliasOf k1 ≠ aliasOf k := by
        rcases hp1 with h | h
        · exact absurd h h1
        · exact h
      have hproc2 : (aliasOf k1 :: processed).contains (aliasOf k) = false :=
        contains_cons_false hproc hne
      by_cases h2 : processed.contains (aliasOf k1) = true
      · rw [if_pos h2]
        exact ih k v l2 processed m e hv hproc hrest hm hpv
      · rw [if_neg h2]
        cases hg : tableGet table (aliasOf k1) with
        | none =>
          exact ih k v l2 processed m e hv hproc hrest hm hpv
        | some m1 =>
          cases hpv1 : processValue m1 v1 with
          | none =>
            simp only [hpv1]
            exact ih k v l2 (aliasOf k1 :: processed) m e hv hproc2 hrest hm hpv
          | some e1 =>
            simp only [hpv1]
            exact List.mem_cons_of_mem _
              (ih k v l2 (aliasOf k1 :: processed) m e hv hproc2 hrest hm hpv)

theorem convertSimple_ok {table : FieldTable} {tm : Int} {d : PDict} {r : PDict}
    (h : convertSimple table tm d = .ok r) :
    r = [("team_member_id", .vInt tm), ("time_zone_id", .vInt 1),
         ("fields", .vList ((convertFields table (allDataOf d) []).map entryToValue))] ∧
    requiredMissing table
      ((convertFields table (allDataOf d) []).map (fun e => e.id)) = false := by
  simp only [convertSimple] at h
  split_ifs at h with h1 h2
  injection h with h3
  exact ⟨h3.symm, eq_false_of_ne_true h2⟩

/-- C1 counterexample: the claim fails as stated when the matched
option id is 0.  The value Condo matches the only option of the
property_type choice field after lowercasing, yet the conversion
returns successfully with no entry for that field at all, because the
code treats the falsy option id 0 as no match. -/
theorem c1_option_id_zero_counterexample :
    optGet [("condo", 0)] (lowerStr "Condo") = some 0 ∧
    resolveOption [("condo", 0)] "Condo" = none ∧
    tableGet zeroOptionTable "property_type" =
      some ⟨926811, "choice", some [("condo", 0)]⟩ ∧
    convertSimple zeroOptionTable 26392 zeroOptionInput = .ok zeroOptionResult ∧
    fieldsHasEntryId zeroOptionResult 926811 = false :=
  ⟨rfl, rfl, rfl, rfl, rfl⟩

/-- C1 as amended: when the first key of all_data targeting a choice
field resolves through the lookup chain, exact lowercase match, then
spaces to hyphens, then a stripped leading listing-, then hyphens
identified with spaces, to a nonzero option id (Python truthiness makes
the code treat an option id of 0 as no match), and the conversion
returns, the emitted entry for that field carries the numeric option id
from the table rather than the original text. -/
theorem c1_choice_value_resolution
    (table : FieldTable) (tm : Int) (d : PDict)
    (l1 l2 : PDict) (k : String) (v : String)
    (m : FieldMapping) (opts : List (String × Int)) (n : Int) (r : PDict)
    (hsplit : allDataOf d = l1 ++ (k, .vStr v) :: l2)
    (hearly : ∀ p ∈ l1, isNone p.2 = true ∨ aliasOf p.1 ≠ aliasOf k)
    (hm : tableGet table (aliasOf k) = some m)
    (hch : m.type = "choice")
    (hopts : m.options = some opts)
    (hres : resolveOption opts v = some n)
    (hok : convertSimple table tm d = .ok r) :
    ∃ fs, dictGet r "fields" = some (.vList fs) ∧
      .vDict [("id", .vInt m.id), ("value", .vInt n)] ∈ fs := by
  have hpv : processValue m (.vStr v) = some ⟨m.id, .vInt n⟩ := by
    simp [processValue, choiceFieldValue, emitEntry, hch, hopts, hres]
  have hmem : (⟨m.id, .vInt n⟩ : FieldEntry) ∈ convertFields table (allDataOf d) [] := by
    rw [hsplit]
    exact convertFields_mem table l1 k (.vStr v) l2 [] m ⟨m.id, .vInt n⟩
      rfl rfl hearly hm hpv
  obtain ⟨hr, _⟩ := convertSimple_ok hok
  subst hr
  exact ⟨_, rfl, List.mem_map_of_mem entryToValue hmem⟩

/-- Witness for C1: on the sample table the status value Under Contract
resolves to 797209 and its entry appears in the conversion result. -/
theorem c1_choice_value_resolution_witness :
    ∃ fs, dictGet c1WitnessResult "fields" = some (.vList fs) ∧
      .vDict [("id", .vInt 926552), ("value", .vInt 797209)] ∈ fs :=
  c1_choice_value_resolution sampleTable 26392 c1WitnessInput
    [("title", .vStr "T")]
    [("contract_title", .vStr "T"), ("contract_client_type", .vStr "buyer"),
     ("contract_status", .vStr "Under Contract")]
    "status" "Under Contract"
    ⟨926552, "choice", some [("listing- active", 797206), ("under-contract", 797209),
                             ("closed", 797207)]⟩
    [("listing- active", 797206), ("under-contract", 797209), ("closed", 797207)]
    797209 c1WitnessResult
    rfl (by decide) rfl rfl rfl rfl rfl

/-- C9: in the fields array of a successful conversion, every entry
comes from some all_data key with a non-None value and a mapping in the
table, its value is an integer or a string, and for every required key
whose mapping exists in the table the built array carries an entry with
that id, since the conversion would otherwise have raised
ValidationError instead of returning. -/
theorem c9_fields_array_invariants
    (table : FieldTable) (tm : Int) (d : PDict) (r : PDict)
    (h : convertSimple table tm d = .ok r) :
    ∃ fs, dictGet r "fields" = some (.vList fs) ∧
      (∀ f ∈ fs, ∃ e : FieldEntry, f = entryToValue e ∧
        ((∃ n, e.value = .vInt n) ∨ (∃ s, e.value = .vStr s)) ∧
        ∃ k v m, (k, v) ∈ allDataOf d ∧ isNone v = false ∧
          tableGet table (aliasOf k) = some m ∧ e.id = m.id ∧
          processValue m v = some e) ∧
      (∀ req m, req ∈ reqKeys → tableGet table req = some m →
        ∃ f ∈ fs, entryIdOf f = some m.id) := by
  obtain ⟨hr, hreq⟩ := convertSimple_ok h
  subst hr
  refine ⟨_, rfl, ?_, ?_⟩
  · intro f hf
    obtain ⟨e, he, rfl⟩ := List.mem_map.mp hf
    obtain ⟨k, v, m, hkv, hv, hg, hpv⟩ := convertFields_sound table _ _ e he
    exact ⟨e, rfl, processValue_shape hpv,
      k, v, m, hkv, hv, hg, processValue_id hpv, hpv⟩
  · intro req m hreqmem hg
    unfold requiredMissing at hreq
    rw [List.any_eq_false] at hreq
    have h5 := hreq req hreqmem
    rw [hg] at h5
    simp only [Bool.not_eq_true, Bool.not_eq_false] at h5
    have h6 : m.id ∈ (convertFields table (allDataOf d) []).map (fun e => e.id) := by
      simpa using h5
    obtain ⟨e, hemem, heid⟩ := List.mem_map.mp h6
    exact ⟨entryToValue e, List.mem_map_of_mem _ hemem, by
      rw [show entryIdOf (entryToValue e) = some e.id from rfl, heid]⟩

/-- Witness for C9 at the sample table and a concrete input. -/
theorem c9_fields_array_invariants_witness :
    ∃ fs, dictGet c9WitnessResult "fields" = some (.vList fs) ∧
      (∀ f ∈ fs, ∃ e : FieldEntry, f = entryToValue e ∧
        ((∃ n, e.value = .vInt n) ∨ (∃ s, e.value = .vStr s)) ∧
        ∃ k v m, (k, v) ∈ allDataOf c9WitnessInput ∧ isNone v = false ∧
          tableGet sampleTable (aliasOf k) = some m ∧ e.id = m.id ∧
          processValue m v = some e) ∧
      (∀ req m, req ∈ reqKeys → tableGet sampleTable req = some m →
        ∃ f ∈ fs, entryIdOf f = some m.id) :=
  c9_fields_array_invariants sampleTable 26392 c9WitnessInput c9WitnessResult rfl

theorem getFieldMappingsS_fst (defs : List RawFieldDef) (σ : CState) :
    (getFieldMappingsS defs σ).1 = effectiveTable defs σ := by
  rcases σ with ⟨_ | t, tr, iss⟩ <;> rfl

theorem convertSimpleS_fst (defs : List RawFieldDef) (teams : List (List Int))
    (tmOpt : Option Int) (d : PDict) (σ : CState) :
    ∃ tm, (convertSimpleS defs teams tmOpt d σ).1 =
      convertSimple (effectiveTable defs σ) tm d := by
  cases tmOpt with
  | some t =>
    exact ⟨t, by simp [convertSimpleS, getFieldMappingsS_fst]⟩
  | none =>
    exact ⟨(getTeamMemberIdS teams (getFieldMappingsS defs σ).2).1,
      by simp [convertSimpleS, getFieldMappingsS_fst]⟩

/-- C4: on simple-format dictionary input (not already API format),
whatever _prepare_property_data returns has exactly the keys
team_member_id, time_zone_id and fields, the time zone is 1, and every
fields entry is the emitted dict of an entry whose id is drawn from the
field-mapping table. -/
theorem c4_prepare_simple_shape
    (defs : List RawFieldDef) (teams : List (List Int)) (tmOpt : Option Int)
    (d : PDict) (σ : CState) (r : PDict) (σ2 : CState)
    (hfmt : (dictHas d "fields" && dictHas d "team_member_id") = false)
    (hok : preparePropertyDataS defs teams tmOpt (.vDict d) σ = (.ok r, σ2)) :
    r.map Prod.fst = ["team_member_id", "time_zone_id", "fields"] ∧
    dictGet r "time_zone_id" = some (.vInt 1) ∧
    ∃ fs, dictGet r "fields" = some (.vList fs) ∧
      ∀ f ∈ fs, ∃ e : FieldEntry, f = entryToValue e ∧
        e.id ∈ (effectiveTable defs σ).map (fun p => p.2.id) := by
  have hpre : preparePropertyDataS defs teams tmOpt (.vDict d) σ =
      convertSimpleS defs teams tmOpt d σ := by
    simp [preparePropertyDataS, hfmt]
  rw [hpre] at hok
  have hconv := congrArg Prod.fst hok
  obtain ⟨tm, htm⟩ := convertSimpleS_fst defs teams tmOpt d σ
  rw [htm] at hconv
  obtain ⟨hr, _⟩ := convertSimple_ok hconv
  subst hr
  refine ⟨rfl, rfl, _, rfl, ?_⟩
  intro f hf
  obtain ⟨e, he, rfl⟩ := List.mem_map.mp hf
  obtain ⟨k, v, m, _, _, hg, hpv⟩ := convertFields_sound _ _ _ e he
  exact ⟨e, rfl, processValue_id hpv ▸ tableGet_id_mem hg⟩

/-- Witness for C4 at the sample definitions and a concrete input. -/
theorem c4_prepare_simple_shape_witness :
    c4WitnessResult.map Prod.fst = ["team_member_id", "time_zone_id", "fields"] ∧
    dictGet c4WitnessResult "time_zone_id" = some (.vInt 1) ∧
    ∃ fs, dictGet c4WitnessResult "fields" = some (.vList fs) ∧
      ∀ f ∈ fs, ∃ e : FieldEntry, f = entryToValue e ∧
        e.id ∈ (effectiveTable sampleDefs freshState).map (fun p => p.2.id) :=
  c4_prepare_simple_shape sampleDefs [] (some 26392) c4WitnessInput freshState
    c4WitnessResult ⟨some sampleTable, [], [⟨"GET", "/propertyFields"⟩]⟩ rfl rfl

/-- C8: a dictionary already in API format, with a fields list and a
team_member_id, passes through _prepare_property_data unchanged: the
result is the same dictionary, the client state is untouched (no
field-mapping or team-member lookup), and preparing the output again
returns it unchanged, so preparation is idempotent on its own output. -/
theorem c8_passthrough_idempotent
    (defs : List RawFieldDef) (teams : List (List Int)) (tmOpt : Option Int)
    (d : PDict) (σ : CState) (l : List Value)
    (h1 : dictHas d "fields" = true) (h2 : dictHas d "team_member_id" = true)
    (h3 : dictGet d "fields" = some (.vList l)) :
    preparePropertyDataS defs teams tmOpt (.vDict d) σ = (.ok d, σ) ∧
    ∀ r σ2, preparePropertyDataS defs teams tmOpt (.vDict d) σ = (.ok r, σ2) →
      preparePropertyDataS defs teams tmOpt (.vDict r) σ2 = (.ok r, σ2) := by
  have hmain : preparePropertyDataS defs teams tmOpt (.vDict d) σ = (.ok d, σ) := by
    simp [preparePropertyDataS, h1, h2, h3]
  refine ⟨hmain, ?_⟩
  intro r σ2 hr
  rw [hmain] at hr
  have h4 : d = r := by
    have := congrArg Prod.fst hr
    simpa using this
  have h5 : σ = σ2 := congrArg Prod.snd hr
  subst h4
  subst h5
  exact hmain

/-- Witness for C8 on concrete API-format data. -/
theorem c8_passthrough_idempotent_witness :
    preparePropertyDataS sampleDefs [] none (.vDict c8WitnessInput) freshState =
      (.ok c8WitnessInput, freshState) ∧
    ∀ r σ2,
      preparePropertyDataS sampleDefs [] none (.vDict c8WitnessInput) freshState =
        (.ok r, σ2) →
      preparePropertyDataS sampleDefs [] none (.vDict r) σ2 = (.ok r, σ2) :=
  c8_passthrough_idempotent sampleDefs [] none c8WitnessInput freshState [] rfl rfl rfl

theorem validatePropertyData_error {data : Value} {op : String} {e : ApiError}
    (h : validatePropertyData data op = .error e) : e = .validationError := by
  cases data <;> simp only [validatePropertyData] at h <;>
    first
    | (injection h with h2; exact h2.symm)
    | (split_ifs at h <;> (injection h with h2; exact h2.symm))

theorem getTeamMemberIdS_trace (teams : List (List Int)) (σ : CState) :
    (getTeamMemberIdS teams σ).2.trace = σ.trace := by
  unfold getTeamMemberIdS
  cases teams.find? (fun t => !t.isEmpty) <;> rfl

theorem getFieldMappingsS_trace (defs : List RawFieldDef) (σ : CState) :
    (getFieldMappingsS defs σ).2.trace = σ.trace := by
  rcases σ with ⟨_ | t, tr, iss⟩ <;> rfl

theorem convertSimpleS_trace (defs : List RawFieldDef) (teams : List (List Int))
    (tmOpt : Option Int) (d : PDict) (σ : CState) :
    (convertSimpleS defs teams tmOpt d σ).2.trace = σ.trace := by
  cases tmOpt with
  | some t => simp [convertSimpleS, getFieldMappingsS_trace]
  | none => simp [convertSimpleS, getTeamMemberIdS_trace, getFieldMappingsS_trace]

theorem preparePropertyDataS_trace (defs : List RawFieldDef)
    (teams : List (List Int)) (tmOpt : Option Int) (data : Value) (σ : CState) :
    (preparePropertyDataS defs teams tmOpt data σ).2.trace = σ.trace := by
  cases data with
  | vStr s =>
    simp only [preparePropertyDataS]
    split_ifs with h
    · rfl
    · exact convertSimpleS_trace defs teams tmOpt _ σ
  | vDict d =>
    simp only [preparePropertyDataS]
    split_ifs with h
    · split <;> rfl
    · exact convertSimpleS_trace defs teams tmOpt d σ
  | vNone => rfl
  | vInt n => rfl
  | vList l => rfl

/-- C6 as amended: update_property validates the raw data and raises
ValidationError before issuing any request whenever the validator
rejects it; create_property raises ValidationError before issuing its
create POST whenever preparation fails or the prepared data fails the
create validation, no transport interaction being consumed in either
case, though the field-mapping and team-member lookups of the
preparation may already have issued requests; the per-field checks of
the validator apply to the prepared data, not to the simple-format
input. -/
theorem c6_validation_before_request :
    (∀ (pid : Int) (data : Value) (σ : CState) (e : ApiError),
      validatePropertyData data "update" = .error e →
      updatePropertyS pid data σ = (.error .validationError, σ)) ∧
    (∀ (defs : List RawFieldDef) (teams : List (List Int)) (tmOpt : Option Int)
       (data : Value) (σ σ1 : CState) (e : ApiError),
      preparePropertyDataS defs teams tmOpt data σ = (.error e, σ1) →
      createPropertyS defs teams tmOpt data σ = (.error e, σ1) ∧
        σ1.trace = σ.trace) ∧
    (∀ (defs : List RawFieldDef) (teams : List (List Int)) (tmOpt : Option Int)
       (data : Value) (σ σ1 : CState) (api : PDict) (e : ApiError),
      preparePropertyDataS defs teams tmOpt data σ = (.ok api, σ1) →
      validatePropertyData (.vDict api) "create" = .error e →
      createPropertyS defs teams tmOpt data σ = (.error e, σ1) ∧
        σ1.trace = σ.trace) := by
  refine ⟨?_, ?_, ?_⟩
  · intro pid data σ e h
    have he := validatePropertyData_error h
    subst he
    unfold updatePropertyS validateResourceId
    split_ifs with hp
    · rfl
    · rw [h]
  · intro defs teams tmOpt data σ σ1 e h
    constructor
    · unfold createPropertyS
      rw [h]
    · have ht := preparePropertyDataS_trace defs teams tmOpt data σ
      rw [h] at ht
      exact ht
  · intro defs teams tmOpt data σ σ1 api e h hval
    constructor
    · unfold createPropertyS
      rw [h]
      simp only [hval]
    · have ht := preparePropertyDataS_trace defs teams tmOpt data σ
      rw [h] at ht
      exact ht

/-- Witness for C6: non-dictionary update data is rejected with no
request issued. -/
theorem c6_validation_before_request_witness :
    validatePropertyData (.vInt 0) "update" = .error .validationError ∧
    updatePropertyS 1 (.vInt 0) freshState = (.error .validationError, freshState) :=
  ⟨rfl, c6_validation_before_request.1 1 (.vInt 0) freshState .validationError rfl⟩

/-- C6 counterexample: data whose contract_title is the integer 42
fails the validator (update_property would reject it), yet
create_property converts it, issues the field-mapping request and then
the create POST, and returns the API result with no ValidationError:
the claim that create_property raises before any HTTP request whenever
the property data fails validation is false on this input. -/
theorem c6_create_posts_unvalidated_data_counterexample :
    validatePropertyData c6Input "update" = .error .validationError ∧
    (createPropertyS sampleDefs [] (some 26392) c6Input c6State).1 =
      .ok (.vDict [("id", .vInt 999)]) ∧
    (createPropertyS sampleDefs [] (some 26392) c6Input c6State).2.issued =
      [⟨"GET", "/propertyFields"⟩, ⟨"POST", "/properties/"⟩] :=
  ⟨rfl, rfl, rfl⟩

theorem dictGet_dictSet_ne (d : PDict) (k k2 : String) (v : Value) (h : k ≠ k2) :
    dictGet (dictSet d k v) k2 = dictGet d k2 := by
  induction d with
  | nil => simp [dictSet, dictGet, beq_eq_false_iff_ne.mpr h]
  | cons p rest ih =>
    rcases p with ⟨k0, v0⟩
    simp only [dictSet]
    by_cases h0 : (k0 == k) = true
    · rw [if_pos h0]
      have hk0 : k0 = k := by simpa using h0
      subst hk0
      simp [dictGet, beq_eq_false_iff_ne.mpr h]
    · rw [if_neg h0]
      simp only [dictGet]
      by_cases h2 : (k0 == k2) = true
      · rw [if_pos h2, if_pos h2]
      · rw [if_neg h2, if_neg h2]
        exact ih

theorem dictGet_coerceKey_ne (d : PDict) (k k2 : String) (h : k ≠ k2) :
    dictGet (coerceKey d k) k2 = dictGet d k2 := by
  unfold coerceKey
  cases dictGet d k with
  | none => rfl
  | some v =>
    show dictGet
      (match pyInt v with
       | some n => dictSet d k (.vInt n)
       | none => d) k2 = dictGet d k2
    cases pyInt v with
    | none => rfl
    | some n => exact dictGet_dictSet_ne d k k2 (.vInt n) h

theorem checkLimit_eq (d : PDict) :
    checkLimit d =
      if badLimit d then Except.error .validationError
      else .ok (coerceKey d "limit") := by
  cases hdg : dictGet d "limit" with
  | none => simp [checkLimit, badLimit, coerceKey, hdg]
  | some v =>
    cases hpi : pyInt v with
    | none => simp [checkLimit, badLimit, coerceKey, hdg, hpi]
    | some n =>
      by_cases hn : n ≤ 0
      · simp [checkLimit, badLimit, coerceKey, hdg, hpi, hn]
      · simp [checkLimit, badLimit, coerceKey, hdg, hpi, hn]

theorem checkOffset_eq (d : PDict) :
    checkOffset d =
      if badOffset d then Except.error .validationError
      else .ok (coerceKey d "offset") := by
  cases hdg : dictGet d "offset" with
  | none => simp [checkOffset, badOffset, coerceKey, hdg]
  | some v =>
    cases hpi : pyInt v with
    | none => simp [checkOffset, badOffset, coerceKey, hdg, hpi]
    | some n =>
      by_cases hn : n < 0
      · simp [checkOffset, badOffset, coerceKey, hdg, hpi, hn]
      · simp [checkOffset, badOffset, coerceKey, hdg, hpi, hn]

theorem checkStatus_eq (d : PDict) :
    checkStatus d =
      if badStatus d then Except.error .validationError else .ok d := by
  cases hdg : dictGet d "status" with
  | none => simp [checkStatus, badStatus, badStrField, hdg]
  | some v =>
    by_cases hs : isNonEmptyStr v = true
    · simp [checkStatus, badStatus, badStrField, hdg, hs]
    · simp [checkStatus, badStatus, badStrField, hdg, hs]

theorem badOffset_coerceKey (d : PDict) :
    badOffset (coerceKey d "limit") = badOffset d := by
  unfold badOffset
  rw [dictGet_coerceKey_ne d "limit" "offset" (by decide)]

theorem badStatus_coerceKey2 (d : PDict) :
    badStatus (coerceKey (coerceKey d "limit") "offset") = badStatus d := by
  unfold badStatus badStrField
  rw [dictGet_coerceKey_ne _ "offset" "status" (by decide),
      dictGet_coerceKey_ne _ "limit" "status" (by decide)]

/-- C10: _validate_list_params returns an empty dictionary for None,
never mutates its argument (the threaded argument value is returned
unchanged in every case, error cases included), raises ValidationError
exactly when a present limit fails int coercion or is non-positive, a
present offset fails int coercion or is negative, or a present status
is not a non-empty string, and otherwise returns the copy with limit
and offset coerced to int. -/
theorem c10_list_params_validation :
    validateListParams none = (.ok [], none) ∧
    (∀ p, (validateListParams p).2 = p) ∧
    (∀ d, ((validateListParams (some (.vDict d))).1 = .error .validationError ↔
      (badLimit d || badOffset d || badStatus d) = true)) ∧
    (∀ d, (badLimit d || badOffset d || badStatus d) = false →
      (validateListParams (some (.vDict d))).1 =
        .ok (coerceKey (coerceKey d "limit") "offset")) := by
  refine ⟨rfl, ?_, ?_, ?_⟩
  · intro p
    rcases p with _ | v
    · rfl
    · cases v <;> rfl
  · intro d
    show (checkLimit d).bind (fun d1 => (checkOffset d1).bind checkStatus) =
        .error .validationError ↔ _
    rw [checkLimit_eq]
    by_cases h1 : badLimit d = true
    · simp [h1, Except.bind]
    · rw [if_neg h1]
      show (checkOffset (coerceKey d "limit")).bind checkStatus =
          .error .validationError ↔ _
      rw [checkOffset_eq, badOffset_coerceKey]
      by_cases h2 : badOffset d = true
      · simp [h2, eq_false_of_ne_true h1, Except.bind]
      · rw [if_neg h2]
        show checkStatus (coerceKey (coerceKey d "limit") "offset") =
            .error .validationError ↔ _
        rw [checkStatus_eq, badStatus_coerceKey2]
        by_cases h3 : badStatus d = true
        · simp [h3, eq_false_of_ne_true h1, eq_false_of_ne_true h2]
        · simp [eq_false_of_ne_true h1, eq_false_of_ne_true h2,
                eq_false_of_ne_true h3]
  · intro d hbad
    have hsplit : (badLimit d = false ∧ badOffset d = false) ∧ badStatus d = false := by
      simpa using hbad
    obtain ⟨⟨h1, h2⟩, h3⟩ := hsplit
    show (checkLimit d).bind (fun d1 => (checkOffset d1).bind checkStatus) = _
    rw [checkLimit_eq, h1]
    show (checkOffset (coerceKey d "limit")).bind checkStatus = _
    rw [checkOffset_eq, badOffset_coerceKey, h2]
    show checkStatus (coerceKey (coerceKey d "limit") "offset") = _
    rw [checkStatus_eq, badStatus_coerceKey2, h3]
    rfl

/-- Witness for C10: a string limit is coerced, the int offset kept,
the argument returned unchanged. -/
theorem c10_list_params_validation_witness :
    (badLimit c10WitnessParams || badOffset c10WitnessParams ||
      badStatus c10WitnessParams) = false ∧
    (validateListParams (some (.vDict c10WitnessParams))).1 =
      .ok (coerceKey (coerceKey c10WitnessParams "limit") "offset") ∧
    (validateListParams (some (.vDict c10WitnessParams))).2 =
      some (.vDict c10WitnessParams) :=
  ⟨rfl, c10_list_params_validation.2.2.2 c10WitnessParams rfl,
   c10_list_params_validation.2.1 (some (.vDict c10WitnessParams))⟩

end OpenToClose
